import Mathlib

/-!
Verification development for the mount-orchestration core of
mounter-elite-plus (src/src/isocmd/mount.cpp, with the string helper
`extractDirectoryAndFilename` from src/sanitization_extraction_readline.cpp).

The C++ code is shallowly embedded: every effectful OS interaction
(statvfs, geteuid, fs::exists, fs::create_directory, mnt_new_context,
mnt_context_mount, fs::remove) is resolved through an explicit
environment record, and each function is translated into a pure Lean
function over that environment.  `std::set` insertions are modelled as
lists of insertion events (newest first for index sets); set membership
is what the proofs use, so the order is immaterial.
-/

namespace MounterElite

/-! ## Mount-point derivation (mount.cpp lines 304-323) -/

/-- The base-36 alphabet used by `mountIsoFile` (mount.cpp line 313). -/
def base36Chars : List Char := "0123456789abcdefghijklmnopqrstuvwxyz".toList

/-- The short-hash loop of mount.cpp lines 315-318: `k` iterations, each
appending `base36Chars[hashValue % 36]` and then dividing the hash by 36. -/
def shortHashAux : Nat → Nat → List Char
  | _, 0 => []
  | h, k + 1 => base36Chars.getD (h % 36) '0' :: shortHashAux (h / 36) k

/-- The 5-character short hash of mount.cpp lines 314-318. -/
def shortHash (h : Nat) : String := ⟨shortHashAux h 5⟩

/-- `fs::path::filename` for POSIX paths: the maximal suffix that contains
no directory separator. -/
def pathFilename (p : String) : String :=
  ⟨((p.toList.reverse.takeWhile (fun c => c != '/')).reverse)⟩

/-- Helper for `pathStem`: drop the extension (the suffix starting at the
last dot), except when the only dot is the leading character. -/
def stemList (l : List Char) : List Char :=
  match (l.reverse.dropWhile (fun c => c != '.')) with
  | [] => l
  | [_] => l
  | _ :: rest => rest.reverse

/-- `fs::path::stem`: the filename without its final extension
(mount.cpp line 306, `isoPath.stem().string()`). -/
def pathStem (p : String) : String :=
  let f := pathFilename p
  if f = "." || f = ".." then f else ⟨stemList f.toList⟩

/-- The mount-point derivation of mount.cpp lines 304-323.  `hasher`
stands for the implementation-defined `std::hash<std::string>`; the code
computes `uniqueId = stem + "_" + shortHash` and prepends `/mnt/iso_`. -/
def mountPoint (hasher : String → Nat) (isoFile : String) : String :=
  "/mnt/iso_" ++ (pathStem isoFile ++ "_" ++ shortHash (hasher isoFile))

/-! ## extractDirectoryAndFilename
(sanitization_extraction_readline.cpp lines 31-91) -/

/-- Directory separators recognized by the C++ code (`find_first_of "/\\"`). -/
def isSep (c : Char) : Bool := c == '/' || c == '\\'

/-- Split a path into the components that precede each separator plus the
final segment (the filename), mirroring the find_first_of loop of
sanitization_extraction_readline.cpp lines 44-66. -/
def splitComps : List Char → List Char → List (List Char) × List Char
  | [], cur => ([], cur.reverse)
  | c :: rest, cur =>
    if isSep c then
      let r := splitComps rest []
      (cur.reverse :: r.1, r.2)
    else
      splitComps rest (c :: cur)

/-- Truncate one directory component to 28 characters, or to the first
space when that occurs no later (lines 48-56). -/
def truncComponent (comp : List Char) : List Char :=
  match comp.findIdx? (fun c => c == ' ') with
  | some sp => if sp ≤ 28 then comp.take sp else comp.take 28
  | none => comp.take 28

/-- Index of the first occurrence of `pat` in `l`, as `std::string::find`. -/
def findSubAux (pat : List Char) : List Char → Nat → Option Nat
  | [], i => if pat.isEmpty then some i else none
  | c :: rest, i =>
    if pat.isPrefixOf (c :: rest) then some i else findSubAux pat rest (i + 1)

/-- Replace the first occurrence of `pat` in `l` by `rep`
(`std::string::replace` after a successful `find`, lines 82-87). -/
def replaceFirst (l pat rep : List Char) : List Char :=
  match findSubAux pat l 0 with
  | some i => l.take i ++ rep ++ l.drop (i + pat.length)
  | none => l

/-- `extractDirectoryAndFilename` (lines 31-91): split on separators,
truncate each directory component, join with slashes, strip the trailing
slash, then apply the `/home` → `~` and `/root` → `/R` replacements.
The C++ replacement table is an `unordered_map`; its iteration order is
unspecified, and we fix the order home-then-root (the two patterns only
interact on paths containing both). -/
def extractDirectoryAndFilename (path : String) : String × String :=
  let r := splitComps path.toList []
  let dirChars := r.1.foldl (fun acc comp => acc ++ truncComponent comp ++ ['/']) []
  let dir0 := if dirChars.getLast? = some '/' then dirChars.dropLast else dirChars
  let dir1 := replaceFirst dir0 ("/home".toList) ("~".toList)
  let dir2 := replaceFirst dir1 ("/root".toList) ("/R".toList)
  (⟨dir2⟩, ⟨r.2⟩)

/-! ## The MountEngine: mountIsoFile (mount.cpp lines 289-434) -/

/-- The ordered filesystem-type candidate list (mount.cpp lines 300-302). -/
def fsTypes : List String :=
  ["iso9660", "udf", "hfsplus", "rockridge", "joliet", "isofs", "auto"]

/-- Environment resolving every OS interaction `mountIsoFile` performs.
`ctxOk iso i` is whether `mnt_new_context` succeeds at attempt `i` for
`iso`; `mountOk iso i` is whether `mnt_context_mount` returns 0 there. -/
structure MountEnv where
  hasher : String → Nat
  alreadyMounted : String → Bool
  euid : Nat
  dirExists : String → Bool
  createOk : String → Bool
  createErr : String → String
  ctxOk : String → Nat → Bool
  mountOk : String → Nat → Bool

/-- The insertions and effects produced while processing one ISO file. -/
structure IsoOutcome where
  mounted : List String
  skipped : List String
  failed : List String
  createCalled : Bool
  dirCreated : Bool
  dirRemoved : Bool
  mountCalls : Nat
  deriving Repr, DecidableEq

/-- The skipped message of mount.cpp lines 331-334. -/
def skippedMessage (iso mp : String) : String :=
  let df := extractDirectoryAndFilename iso
  let mdf := extractDirectoryAndFilename mp
  "\x1b[1;93mISO: \x1b[1;92m\x27" ++ df.1 ++ "/" ++ df.2 ++
    "\x27\x1b[1;93m already M@: \x1b[1;94m\x27" ++ mdf.1 ++ "/" ++ mdf.2 ++
    "\x27\x1b[1;93m.\x1b[0m"

/-- The privilege-failure message of mount.cpp lines 344-346; it carries
the words "Root privileges are required". -/
def privFailMessage (iso : String) : String :=
  let df := extractDirectoryAndFilename iso
  "\x1b[1;91mFailed to mount: \x1b[1;93m\x27" ++ df.1 ++ "/" ++ df.2 ++
    "\x27\x1b[0m\x1b[1;91m. Root privileges are required.\x1b[0m"

/-- The directory-creation failure message of mount.cpp lines 359-361. -/
def createFailMessage (mp what : String) : String :=
  "\x1b[1;91mFailed to create mount point: \x1b[1;93m\x27" ++ mp ++
    "\x27\x1b[0m\x1b[1;91m. Error: " ++ what ++ "\x1b[0m"

/-- The context-initialization failure message of mount.cpp lines 384-386. -/
def ctxFailMessage (iso : String) : String :=
  let df := extractDirectoryAndFilename iso
  "\x1b[1;91mFailed to initialize mount context for: \x1b[1;93m\x27" ++
    df.1 ++ "/" ++ df.2 ++ "\x27\x1b[0m\x1b[1;91m.\x1b[0m"

/-- The success message of mount.cpp lines 406-408, tagged with the
filesystem type that succeeded. -/
def mountedMessage (iso mp fsType : String) : String :=
  let df := extractDirectoryAndFilename iso
  let mdf := extractDirectoryAndFilename mp
  "\x1b[1mISO: \x1b[1;92m\x27" ++ df.1 ++ "/" ++ df.2 ++
    "\x27\x1b[0m\x1b[1m M@: \x1b[1;94m\x27" ++ mdf.1 ++ "/" ++ mdf.2 ++
    "\x27\x1b[0;1m. \x7b" ++ fsType ++ "\x7d\x1b[0m"

/-- The generic unsupported-filesystem message of mount.cpp lines
424-426, tagged `{badFS}`. -/
def badFSMessage (iso : String) : String :=
  let df := extractDirectoryAndFilename iso
  "\x1b[1;91mFailed to mount: \x1b[1;93m\x27" ++ df.1 ++ "/" ++ df.2 ++
    "\x27.\x1b[0;1m \x7bbadFS\x7d"

/-- The filesystem-type loop of mount.cpp lines 372-420, starting at
attempt index `i`.  Returns the successful type (if any), the failure
messages inserted during the loop, and the number of `mnt_context_mount`
calls made.  A context-initialization failure inserts its message and
breaks; a successful mount breaks; a plain mount failure falls through
to the next candidate type. -/
def tryFsTypes (env : MountEnv) (iso : String) : Nat → List String →
    Option String × List String × Nat
  | _, [] => (none, [], 0)
  | i, fs :: rest =>
    if !(env.ctxOk iso i) then (none, [ctxFailMessage iso], 0)
    else if env.mountOk iso i then (some fs, [], 1)
    else
      match tryFsTypes env iso (i + 1) rest with
      | (s, m, c) => (s, m, c + 1)

/-- The per-image body of `mountIsoFile` (mount.cpp lines 304-433):
derive the mount point, skip if already mounted, fail without any OS
mount call when unprivileged, ensure the mount-point directory, try the
filesystem types in order, and on total failure remove the mount point
and record the `{badFS}` failure. -/
def mountOneIso (env : MountEnv) (iso : String) : IsoOutcome :=
  let mp := mountPoint env.hasher iso
  if env.alreadyMounted mp then
    { mounted := [], skipped := [skippedMessage iso mp], failed := [],
      createCalled := false, dirCreated := false, dirRemoved := false,
      mountCalls := 0 }
  else if env.euid ≠ 0 then
    { mounted := [], skipped := [], failed := [privFailMessage iso],
      createCalled := false, dirCreated := false, dirRemoved := false,
      mountCalls := 0 }
  else if !(env.dirExists mp) && !(env.createOk mp) then
    { mounted := [], skipped := [],
      failed := [createFailMessage mp (env.createErr mp)],
      createCalled := true, dirCreated := false, dirRemoved := false,
      mountCalls := 0 }
  else
    let createCalled := !(env.dirExists mp)
    match tryFsTypes env iso 0 fsTypes with
    | (some fs, msgs, calls) =>
      { mounted := [mountedMessage iso mp fs], skipped := [], failed := msgs,
        createCalled := createCalled, dirCreated := createCalled,
        dirRemoved := false, mountCalls := calls }
    | (none, msgs, calls) =>
      { mounted := [], skipped := [], failed := msgs ++ [badFSMessage iso],
        createCalled := createCalled, dirCreated := createCalled,
        dirRemoved := true, mountCalls := calls }

/-- `mountIsoFile` over a list of candidates (the outer loop of
mount.cpp line 304): the per-candidate outcomes in order. -/
def mountIsoFile (env : MountEnv) (isos : List String) : List IsoOutcome :=
  isos.map (mountOneIso env)

/-- Total number of `mnt_context_mount` invocations for a whole list. -/
def batchMountCalls (env : MountEnv) (isos : List String) : Nat :=
  (mountIsoFile env isos).foldl (fun acc o => acc + o.mountCalls) 0

/-! ## Selection parsing: the token loop of `processAndMountIsoFiles`
(mount.cpp lines 438-608).  The pre-scan of lines 445-484 only sizes the
thread pool and does not affect which indices are dispatched, so the
dispatch behaviour is fully determined by the main loop modelled here. -/

/-- Result of `std::stoi`: a value, or one of its two exceptions. -/
inductive StoiResult where
  | ok (v : Int)
  | invalidArg
  | outOfRange
  deriving Repr, DecidableEq

/-- Decimal value of a digit run. -/
def digitsVal (l : List Char) : Nat :=
  l.foldl (fun a c => a * 10 + (c.toNat - 48)) 0

/-- Whitespace in the default locale (`isspace`), also what
`std::istringstream >>` skips between tokens. -/
def isWS (c : Char) : Bool :=
  c == ' ' || c == '\t' || c == '\n' || c == '\x0b' || c == '\x0c' || c == '\r'

/-- `std::stoi` on a character list: skip whitespace, read an optional
sign and a digit run; no digits is `invalid_argument`, a value outside
the `int` range is `out_of_range`. -/
def stoiList (l : List Char) : StoiResult :=
  let l1 := l.dropWhile isWS
  let signed : Bool × List Char :=
    match l1 with
    | '-' :: r => (true, r)
    | '+' :: r => (false, r)
    | r => (false, r)
  let ds := signed.2.takeWhile Char.isDigit
  if ds.isEmpty then .invalidArg
  else
    let v : Int := (digitsVal ds : Nat)
    let sv := if signed.1 then -v else v
    if sv < -2147483648 ∨ 2147483647 < sv then .outOfRange else .ok sv

/-- `std::stoi` on a string. -/
def stoi (s : String) : StoiResult := stoiList s.toList

/-- Modelled from the spec: `isAllZeros` is declared outside src/ (in the
repository's shared headers).  Spec §4.1: "a token of all zeros is
rejected as an explicit error" — it holds for a nonempty token whose
characters are all zero. -/
def isAllZeros (s : String) : Bool :=
  !s.isEmpty && s.toList.all (fun c => c == '0')

/-- Modelled from the spec: `isNumeric` is declared outside src/ (in the
repository's shared headers).  Per spec §3 a single selection token is "a
single 1-based index", i.e. a nonempty all-digit token. -/
def isNumeric (s : String) : Bool :=
  !s.isEmpty && s.toList.all Char.isDigit

/-- What the main token loop does with one token.  `ignore` is the
unreachable numeric fall-through (a numeric token with value below 1 is
always caught earlier as all-zeros); `crash` is the uncaught
`std::out_of_range` that `std::stoi` can raise at mount.cpp line 588. -/
inductive TokAction where
  | stop
  | err (msg : String)
  | range (a b : Int)
  | single (v : Int)
  | ignore
  | crash
  deriving Repr, DecidableEq

/-- The error-message literals of mount.cpp lines 540, 548/557/606,
560, 565 and 603. -/
def zeroIndexError : String := "\x1b[1;91mInvalid index: \x270\x27.\x1b[0;1m"

def invalidInputError (tok : String) : String :=
  "\x1b[1;91mInvalid input: \x27" ++ tok ++ "\x27.\x1b[0;1m"

def invalidRangeTokenError (tok : String) : String :=
  "\x1b[1;91mInvalid range: \x27" ++ tok ++ "\x27.\x1b[0;1m"

def invalidRangeBoundsError (a b : Int) : String :=
  "\x1b[1;91mInvalid range: \x27" ++ toString a ++ "-" ++ toString b ++
    "\x27.\x1b[0;1m"

def invalidIndexError (v : Int) : String :=
  "\x1b[1;91mInvalid index: \x27" ++ toString v ++ "\x27.\x1b[0;1m"

/-- Classification of one token by the main loop of mount.cpp lines
534-607, against a candidate-list length `n`: the hyphen checks of line
546-547, the two `stoi` calls with their catch clauses (lines 552-562),
the bounds check of line 564, and the numeric branch of lines 587-604. -/
def classifyToken (n : Nat) (tok : String) : TokAction :=
  if tok = "/" then .stop
  else if isAllZeros tok then .err zeroIndexError
  else
    match tok.toList.findIdx? (fun c => c == '-') with
    | some d =>
      if (tok.toList.drop (d + 1)).any (fun c => c == '-') ∨ d = 0 ∨
          d = tok.toList.length - 1 ∨
          ¬ (tok.toList.getD (d - 1) ' ').isDigit ∨
          ¬ (tok.toList.getD (d + 1) ' ').isDigit then
        .err (invalidInputError tok)
      else
        match stoiList (tok.toList.take d) with
        | .invalidArg => .err (invalidInputError tok)
        | .outOfRange => .err (invalidRangeTokenError tok)
        | .ok a =>
          match stoiList (tok.toList.drop (d + 1)) with
          | .invalidArg => .err (invalidInputError tok)
          | .outOfRange => .err (invalidRangeTokenError tok)
          | .ok b =>
            if a < 1 ∨ (n : Int) < a ∨ b < 1 ∨ (n : Int) < b then
              .err (invalidRangeBoundsError a b)
            else .range a b
    | none =>
      if isNumeric tok then
        match stoi tok with
        | .ok v =>
          if 1 ≤ v ∧ v ≤ (n : Int) then .single v
          else if (n : Int) < v then .err (invalidIndexError v)
          else .ignore
        | _ => .crash
      else .err (invalidInputError tok)

/-- The inclusive index sequence of a range, ascending or descending
(the step loop of mount.cpp lines 571-572). -/
def rangeSeq (a b : Int) : List Int :=
  if a ≤ b then (List.range ((b - a).toNat + 1)).map (fun k : Nat => a + (k : Int))
  else (List.range ((a - b).toNat + 1)).map (fun k : Nat => a - (k : Int))

/-- The mutable state of one `processAndMountIsoFiles` call that the
token loop updates: the dedup sets `processedRanges` and
`processedIndices`, the indices submitted to the pool (`dispatched`,
newest first), the error queue, the `/`-break flag, and whether an
uncaught exception escaped. -/
structure SelState where
  processedRanges : List (Int × Int)
  processedIndices : List Int
  dispatched : List Int
  errors : List String
  stopped : Bool
  crashed : Bool
  deriving Repr, DecidableEq

def initialSelState : SelState :=
  { processedRanges := [], processedIndices := [], dispatched := [],
    errors := [], stopped := false, crashed := false }

/-- One dedup-gated dispatch: if the index is new to `processedIndices`,
insert it and enqueue a `processTask` closure (mount.cpp lines 573-584
and 590-601). -/
def dispatchOne (st : SelState) (i : Int) : SelState :=
  if i ∈ st.processedIndices then st
  else { st with processedIndices := i :: st.processedIndices,
                 dispatched := i :: st.dispatched }

/-- Dispatch every index of `seq` that is not yet in `processedIndices`
(the inner loop of mount.cpp lines 572-585). -/
def dispatchSeq (seq : List Int) (st : SelState) : SelState :=
  match seq with
  | [] => st
  | i :: rest => dispatchSeq rest (dispatchOne st i)

/-- One iteration of the token loop (mount.cpp lines 534-607). -/
def stepToken (n : Nat) (st : SelState) (tok : String) : SelState :=
  if st.stopped || st.crashed then st
  else
    match classifyToken n tok with
    | .stop => { st with stopped := true }
    | .err m => { st with errors := st.errors ++ [m] }
    | .crash => { st with crashed := true }
    | .ignore => st
    | .single v => dispatchOne st v
    | .range a b =>
      if (a, b) ∈ st.processedRanges then st
      else dispatchSeq (rangeSeq a b)
        { st with processedRanges := (a, b) :: st.processedRanges }

/-- The whole token loop over a token list. -/
def resolveSelection (n : Nat) (tokens : List String) : SelState :=
  tokens.foldl (stepToken n) initialSelState

/-- Helper for `splitWS`: accumulate the current token (reversed). -/
def splitWSAux : List Char → List Char → List String
  | [], cur => if cur.isEmpty then [] else [⟨cur.reverse⟩]
  | c :: rest, cur =>
    if isWS c then
      if cur.isEmpty then splitWSAux rest []
      else ⟨cur.reverse⟩ :: splitWSAux rest []
    else splitWSAux rest (c :: cur)

/-- Whitespace tokenisation of the raw selection string
(`std::istringstream >> token`): maximal non-whitespace runs. -/
def splitWS (s : String) : List String := splitWSAux s.toList []

/-- The input-resolution phase of `processAndMountIsoFiles` on the raw
selection string, for a candidate list of length `n`. -/
def resolveSelectionString (n : Nat) (input : String) : SelState :=
  resolveSelection n (splitWS input)

/-- The `validIndices` gate of `processTask` (mount.cpp lines 507-519):
given the dispatched tasks in some execution order, `mountIsoFile` is
invoked exactly for the indices whose insertion into `validIndices` is
new, i.e. for the first occurrence of each index. -/
def firstOccurrences : List Int → List Int → List Int
  | [], _ => []
  | i :: rest, seen =>
    if i ∈ seen then firstOccurrences rest seen
    else i :: firstOccurrences rest (i :: seen)

/-- The indices for which the dispatched tasks actually call
`mountIsoFile`. -/
def mountTaskCalls (dispatched : List Int) : List Int :=
  firstOccurrences dispatched []

/-! ## Orchestration counters and progress thread (mount.cpp lines
494-633), as a step relation.  The thread pool and `displayProgressBar`
are declared outside src/; spec §4.2 and §4.4 describe them (the pool
runs each submitted closure to completion; the progress thread "runs ...
until the done flag is observed set; then returns", and is joined after
the orchestrator confirms all tasks finished), and the transitions
`runTask` and `progressExit` are modelled from those words. -/

structure OrchState where
  totalTasks : Nat
  completedTasks : Nat
  activeTaskCount : Nat
  submitting : Bool
  doneFlag : Bool
  progressStarted : Bool
  progressExited : Bool
  returned : Bool
  deriving Repr, DecidableEq

/-- Interleaved events of one `processAndMountIsoFiles` call:
`submit` is lines 581-583/598-600 (totalTasks and activeTaskCount are
incremented and a task enqueued); `runTask` is a pool worker finishing
`processTask` (lines 521-524); `startProgress` is lines 618-622 (the
token loop is over and `processedIndices` is nonempty, which is
equivalent to `totalTasks > 0`); `returnEmpty` is the skip of the whole
block when nothing was dispatched; `observeZero` is the condition
variable wait for `activeTaskCount == 0` plus the store of the done flag
(lines 625-631); `progressExit` is the progress thread observing the
done flag and returning; `joinReturn` is the join at line 632 followed
by the function returning. -/
inductive OrchStep : OrchState → OrchState → Prop where
  | submit (s : OrchState) (h : s.submitting = true) :
      OrchStep s { s with totalTasks := s.totalTasks + 1,
                          activeTaskCount := s.activeTaskCount + 1 }
  | runTask (s : OrchState) (h : 0 < s.activeTaskCount) :
      OrchStep s { s with completedTasks := s.completedTasks + 1,
                          activeTaskCount := s.activeTaskCount - 1 }
  | startProgress (s : OrchState) (h1 : s.submitting = true)
      (h2 : 0 < s.totalTasks) :
      OrchStep s { s with submitting := false, progressStarted := true }
  | returnEmpty (s : OrchState) (h1 : s.submitting = true)
      (h2 : s.totalTasks = 0) :
      OrchStep s { s with submitting := false, returned := true }
  | observeZero (s : OrchState) (h1 : s.submitting = false)
      (h2 : s.progressStarted = true) (h3 : s.activeTaskCount = 0)
      (h4 : s.doneFlag = false) :
      OrchStep s { s with doneFlag := true }
  | progressExit (s : OrchState) (h1 : s.doneFlag = true)
      (h2 : s.progressStarted = true) :
      OrchStep s { s with progressExited := true }
  | joinReturn (s : OrchState) (h1 : s.progressStarted = true)
      (h2 : s.doneFlag = true) (h3 : s.progressExited = true) :
      OrchStep s { s with returned := true }

/-- State at entry of `processAndMountIsoFiles` (lines 496-499). -/
def orchInit : OrchState :=
  { totalTasks := 0, completedTasks := 0, activeTaskCount := 0,
    submitting := true, doneFlag := false, progressStarted := false,
    progressExited := false, returned := false }

def OrchReachable (s : OrchState) : Prop :=
  Relation.ReflTransGen OrchStep orchInit s

/-- The inductive invariant of the orchestration system. -/
def OrchInv (s : OrchState) : Prop :=
  s.completedTasks + s.activeTaskCount = s.totalTasks ∧
  (s.doneFlag = true → s.activeTaskCount = 0 ∧ s.submitting = false) ∧
  (s.progressStarted = true → s.submitting = false) ∧
  (s.progressExited = true → s.doneFlag = true) ∧
  (s.returned = true → s.submitting = false ∧
    s.completedTasks = s.totalTasks ∧
    (s.progressStarted = true → s.progressExited = true))

/-! ## Concrete environments for witnesses and counterexamples -/

/-- A concrete stand-in hash function. -/
def constHasher : String → Nat := fun _ => 0

/-- Environment where every derived mount point is already mounted and
the caller is unprivileged. -/
def envAlready : MountEnv :=
  { hasher := constHasher, alreadyMounted := fun _ => true, euid := 1000,
    dirExists := fun _ => false, createOk := fun _ => true,
    createErr := fun _ => "", ctxOk := fun _ _ => true,
    mountOk := fun _ _ => true }

/-- Unprivileged environment with nothing mounted. -/
def envNoPriv : MountEnv := { envAlready with alreadyMounted := fun _ => false }

/-- Privileged environment where every mount attempt fails. -/
def envAllFail : MountEnv :=
  { hasher := constHasher, alreadyMounted := fun _ => false, euid := 0,
    dirExists := fun _ => false, createOk := fun _ => true,
    createErr := fun _ => "", ctxOk := fun _ _ => true,
    mountOk := fun _ _ => false }

/-- Same, but the mount-point directory already exists beforehand. -/
def envAllFailPre : MountEnv := { envAllFail with dirExists := fun _ => true }

/-- A family of pairwise distinct paths that all share the stem `x`:
`collPath n` is `n` copies of `a` followed by `/x.iso`. -/
def collPath (n : Nat) : String :=
  ⟨List.replicate n 'a' ++ ('/' :: ("x.iso").toList)⟩

/-- The orchestration state after one submitted task completed, the
progress thread exited, and the function returned. -/
def orchFinal : OrchState :=
  { totalTasks := 1, completedTasks := 1, activeTaskCount := 0,
    submitting := false, doneFlag := true, progressStarted := true,
    progressExited := true, returned := true }

/-- A selection state in which the range `1-2` has already been
expanded and dispatched. -/
def dupRangeState : SelState :=
  { processedRanges := [(1, 2)], processedIndices := [2, 1],
    dispatched := [2, 1], errors := [], stopped := false, crashed := false }

/-- The invariant of the token loop: the dispatched indices are
duplicate-free, recorded in `processedIndices`, and within `[1, n]`. -/
def SelInv (n : Nat) (st : SelState) : Prop :=
  st.dispatched.Nodup ∧
  (∀ i ∈ st.dispatched, i ∈ st.processedIndices) ∧
  (∀ i ∈ st.dispatched, 1 ≤ i ∧ i ≤ (n : Int))

/-! # Theorems -/

/-! ## Short hash and mount point (claims C2, C7) -/

theorem data_append (s t : String) : (s ++ t).data = s.data ++ t.data := by
  cases s; cases t; rfl

theorem shortHashAux_length (h k : Nat) : (shortHashAux h k).length = k := by
  induction k generalizing h with
  | zero => rfl
  | succ k ih => simp [shortHashAux, ih]

theorem shortHash_length (h : Nat) : (shortHash h).length = 5 :=
  shortHashAux_length h 5

theorem base36_getD_mem :
    ∀ m : Fin 36, base36Chars.getD (m : Nat) '0' ∈ base36Chars := by decide

theorem shortHashAux_all_base36 (h k : Nat) :
    (shortHashAux h k).all (fun c => base36Chars.contains c) = true := by
  induction k generalizing h with
  | zero => rfl
  | succ k ih =>
    rw [shortHashAux, List.all_cons, ih, Bool.and_true, List.contains_iff_exists_mem_beq]
    have hm : h % 36 < 36 := Nat.mod_lt _ (by norm_num)
    exact ⟨base36Chars.getD (h % 36) '0', base36_getD_mem ⟨h % 36, hm⟩, by simp⟩

theorem base36_getD_injective :
    ∀ a b : Fin 36,
      base36Chars.getD (a : Nat) '0' = base36Chars.getD (b : Nat) '0' → a = b := by
  decide

theorem shortHashAux_inj (k : Nat) :
    ∀ h1 h2 : Nat, shortHashAux h1 k = shortHashAux h2 k →
      h1 % 36 ^ k = h2 % 36 ^ k := by
  induction k with
  | zero => intro h1 h2 _; simp [Nat.mod_one]
  | succ k ih =>
    intro h1 h2 heq
    rw [shortHashAux, shortHashAux] at heq
    have hhead : base36Chars.getD (h1 % 36) '0' = base36Chars.getD (h2 % 36) '0' :=
      (List.cons.injEq _ _ _ _ ▸ heq).1
    have htail := (List.cons.injEq _ _ _ _ ▸ heq).2
    have hm1 : h1 % 36 < 36 := Nat.mod_lt _ (by norm_num)
    have hm2 : h2 % 36 < 36 := Nat.mod_lt _ (by norm_num)
    have hmod : h1 % 36 = h2 % 36 := by
      have := base36_getD_injective ⟨h1 % 36, hm1⟩ ⟨h2 % 36, hm2⟩ hhead
      exact Fin.mk.injEq _ _ _ _ ▸ this
    have hdiv := ih (h1 / 36) (h2 / 36) htail
    have e1 : (36 : Nat) ^ (k + 1) = 36 * 36 ^ k := by ring
    rw [e1, Nat.mod_mul, Nat.mod_mul, hmod, hdiv]

/-- C2: the derived mount point is literally `"/mnt/iso_"`, then the stem
of the source path, then `"_"`, then a 5-character string over the
base-36 alphabet computed from `hash(path)`; and the derivation is a
pure function, so deriving twice from equal path strings yields the
identical mount-point string. -/
theorem mountPoint_shape (hasher : String → Nat) (p q : String) (hpq : p = q) :
    mountPoint hasher p =
      "/mnt/iso_" ++ pathStem p ++ "_" ++ shortHash (hasher p) ∧
    (shortHash (hasher p)).length = 5 ∧
    ((shortHash (hasher p)).toList.all (fun c => base36Chars.contains c)) = true ∧
    mountPoint hasher p = mountPoint hasher q := by
  refine ⟨?_, shortHash_length _, shortHashAux_all_base36 _ 5, by rw [hpq]⟩
  simp [mountPoint, String.append_assoc]

theorem mountPoint_shape_witness :
    mountPoint constHasher ("/a/disc.iso") =
      "/mnt/iso_" ++ pathStem ("/a/disc.iso") ++ "_" ++
        shortHash (constHasher ("/a/disc.iso")) ∧
    (shortHash (constHasher ("/a/disc.iso"))).length = 5 ∧
    ((shortHash (constHasher ("/a/disc.iso"))).toList.all
      (fun c => base36Chars.contains c)) = true ∧
    mountPoint constHasher ("/a/disc.iso") = mountPoint constHasher ("/a/disc.iso") :=
  mountPoint_shape constHasher ("/a/disc.iso") ("/a/disc.iso") rfl

/-- C7 (counterexample): the claim "distinct paths with identical base
names yield distinct mount points" is false for the code's scheme: only
`36^5` short hashes exist, so a hash function cannot separate all
distinct paths; instantiated here with a concrete hash function and two
distinct paths sharing the stem `disc`. -/
theorem mountPoint_collision_counterexample :
    ¬ (∀ (hasher : String → Nat) (p q : String),
        p ≠ q → pathStem p = pathStem q →
        mountPoint hasher p ≠ mountPoint hasher q) := by
  intro h
  exact h constHasher ("/a/disc.iso") ("/b/disc.iso") (by decide) (by decide) rfl

/-- C7 (amended): distinct paths with identical stems receive distinct
mount points exactly when their hashes differ modulo `36^5` (the
information kept by the 5-character short hash). -/
theorem mountPoint_inj_of_hash_mod_ne (hasher : String → Nat) (p q : String)
    (hstem : pathStem p = pathStem q)
    (hmod : hasher p % 36 ^ 5 ≠ hasher q % 36 ^ 5) :
    mountPoint hasher p ≠ mountPoint hasher q := by
  intro hcontra
  apply hmod
  apply shortHashAux_inj 5
  have hd := congrArg String.data hcontra
  simp only [mountPoint, shortHash, data_append, hstem] at hd
  have h1 := List.append_cancel_left hd
  exact List.append_cancel_left h1

theorem mountPoint_inj_witness :
    mountPoint String.length ("/a/disc.iso") ≠ mountPoint String.length ("/ab/disc.iso") :=
  mountPoint_inj_of_hash_mod_ne String.length ("/a/disc.iso") ("/ab/disc.iso")
    (by decide) (by decide)

theorem shortHashAux_mod (k : Nat) :
    ∀ h : Nat, shortHashAux (h % 36 ^ k) k = shortHashAux h k := by
  induction k with
  | zero => intro h; rfl
  | succ k ih =>
    intro h
    rw [shortHashAux, shortHashAux]
    have hdvd : (36 : Nat) ∣ 36 ^ (k + 1) := dvd_pow_self 36 (Nat.succ_ne_zero k)
    have hdiv : h % 36 ^ (k + 1) / 36 = h / 36 % 36 ^ k := by
      rw [show (36 : Nat) ^ (k + 1) = 36 * 36 ^ k by ring]
      exact Nat.mod_mul_right_div_self h 36 (36 ^ k)
    rw [Nat.mod_mod_of_dvd h hdvd, hdiv, ih]

theorem takeWhile_prefix_stop (p : Char → Bool) :
    ∀ (xs : List Char) (y : Char) (ys : List Char),
      (∀ c ∈ xs, p c = true) → p y = false →
      (xs ++ y :: ys).takeWhile p = xs := by
  intro xs
  induction xs with
  | nil => intro y ys _ hy; simp [List.takeWhile_cons, hy]
  | cons x xs ih =>
    intro y ys hall hy
    rw [List.cons_append, List.takeWhile_cons,
      hall x (List.mem_cons_self _ _), if_pos rfl]
    rw [ih y ys (fun c hc => hall c (List.mem_cons_of_mem _ hc)) hy]

theorem collPath_filename (n : Nat) : pathFilename (collPath n) = "x.iso" := by
  unfold pathFilename collPath
  have h1 : ((List.replicate n 'a' ++ ('/' :: ("x.iso").toList)).reverse)
      = ("x.iso").toList.reverse ++ '/' :: (List.replicate n 'a').reverse := by
    rw [List.reverse_append, List.reverse_cons, List.append_assoc,
      List.singleton_append]
  rw [show (⟨List.replicate n 'a' ++ ('/' :: ("x.iso").toList)⟩ : String).toList
      = List.replicate n 'a' ++ ('/' :: ("x.iso").toList) from rfl, h1,
    takeWhile_prefix_stop _ _ _ _ ?_ rfl]
  · rw [List.reverse_reverse]
    rfl
  · intro c hc
    rw [List.mem_reverse] at hc
    fin_cases hc <;> rfl

theorem collPath_stem (n : Nat) : pathStem (collPath n) = "x" := by
  simp only [pathStem, collPath_filename n]
  decide

theorem collPath_inj (n m : Nat) (h : collPath n = collPath m) : n = m := by
  have hlen := congrArg (fun s : String => s.data.length) h
  simp only [collPath, List.length_append, List.length_replicate] at hlen
  omega

/-- C7 (supporting): no hash function makes the scheme collision-free —
the 5-character short hash takes at most `36^5` values, so among any
`36^5 + 1` distinct paths sharing the stem `x`, two collide on the full
mount point.  This shows the counterexample is not an artifact of the
chosen stand-in hash function. -/
theorem mountPoint_collision_unavoidable (hasher : String → Nat) :
    ∃ p q : String, p ≠ q ∧ pathStem p = pathStem q ∧
      mountPoint hasher p = mountPoint hasher q := by
  have hcard : Fintype.card (Fin (36 ^ 5)) < Fintype.card (Fin (36 ^ 5 + 1)) := by
    rw [Fintype.card_fin, Fintype.card_fin]
    omega
  obtain ⟨n, m, hne, heq⟩ := Fintype.exists_ne_map_eq_of_card_lt
    (fun n : Fin (36 ^ 5 + 1) =>
      (⟨hasher (collPath (n : Nat)) % 36 ^ 5,
        Nat.mod_lt _ (by norm_num)⟩ : Fin (36 ^ 5)))
    hcard
  refine ⟨collPath (n : Nat), collPath (m : Nat), ?_, ?_, ?_⟩
  · intro hc
    exact hne (Fin.ext (collPath_inj _ _ hc))
  · rw [collPath_stem, collPath_stem]
  · have hmod : hasher (collPath (n : Nat)) % 36 ^ 5
        = hasher (collPath (m : Nat)) % 36 ^ 5 := congrArg Fin.val heq
    have hsh : shortHash (hasher (collPath (n : Nat)))
        = shortHash (hasher (collPath (m : Nat))) := by
      unfold shortHash
      rw [← shortHashAux_mod 5 (hasher (collPath (n : Nat))),
        ← shortHashAux_mod 5 (hasher (collPath (m : Nat))), hmod]
    unfold mountPoint
    rw [collPath_stem, collPath_stem, hsh]

/-! ## The MountEngine state machine (claims C3, C4, C5, C6, C10) -/

theorem tryFsTypes_none_of_allFail (env : MountEnv) (iso : String) :
    ∀ (l : List String) (i : Nat),
      (∀ j, j < l.length → env.ctxOk iso (i + j) = true) →
      (∀ j, j < l.length → env.mountOk iso (i + j) = false) →
      tryFsTypes env iso i l = (none, [], l.length) := by
  intro l
  induction l with
  | nil => intro i _ _; rfl
  | cons fs rest ih =>
    intro i hctx hmnt
    have hc0 : env.ctxOk iso i = true := by simpa using hctx 0 (by simp)
    have hm0 : env.mountOk iso i = false := by simpa using hmnt 0 (by simp)
    have hrec := ih (i + 1)
      (fun j hj => by
        have := hctx (j + 1) (by simpa using Nat.succ_lt_succ hj)
        rwa [show i + (j + 1) = i + 1 + j by omega] at this)
      (fun j hj => by
        have := hmnt (j + 1) (by simpa using Nat.succ_lt_succ hj)
        rwa [show i + (j + 1) = i + 1 + j by omega] at this)
    simp [tryFsTypes, hc0, hm0, hrec]

theorem tryFsTypes_success_msgs (env : MountEnv) (iso : String) :
    ∀ (l : List String) (i : Nat) (fs : String) (m : List String) (c : Nat),
      tryFsTypes env iso i l = (some fs, m, c) → m = [] := by
  intro l
  induction l with
  | nil => intro i fs m c h; simp [tryFsTypes] at h
  | cons f rest ih =>
    intro i fs m c h
    rw [tryFsTypes] at h
    by_cases hc : env.ctxOk iso i
    · rw [hc] at h
      simp only [Bool.not_true, Bool.false_eq_true, if_false] at h
      by_cases hm : env.mountOk iso i
      · rw [if_pos hm] at h
        simp only [Prod.mk.injEq] at h
        exact h.2.1.symm
      · rw [if_neg hm] at h
        rcases hr : tryFsTypes env iso (i + 1) rest with ⟨s, ms, cnt⟩
        rw [hr] at h
        simp only [Prod.mk.injEq] at h
        obtain ⟨hs, hms, hcnt⟩ := h
        exact hms ▸ ih (i + 1) fs ms cnt (by rw [hr, hs])
    · rw [Bool.not_eq_true] at hc
      rw [hc] at h
      simp at h

/-- Shared helper: the full outcome record when nothing is mounted yet,
the caller is privileged, the directory step succeeds, and every
filesystem-type attempt fails. -/
theorem mountOneIso_allFail (env : MountEnv) (iso : String)
    (h1 : env.alreadyMounted (mountPoint env.hasher iso) = false)
    (h2 : env.euid = 0)
    (h3 : env.dirExists (mountPoint env.hasher iso) = true ∨
          env.createOk (mountPoint env.hasher iso) = true)
    (h4 : ∀ j, j < 7 → env.ctxOk iso j = true)
    (h5 : ∀ j, j < 7 → env.mountOk iso j = false) :
    mountOneIso env iso =
      { mounted := [], skipped := [], failed := [badFSMessage iso],
        createCalled := !(env.dirExists (mountPoint env.hasher iso)),
        dirCreated := !(env.dirExists (mountPoint env.hasher iso)),
        dirRemoved := true, mountCalls := 7 } := by
  have htry : tryFsTypes env iso 0 fsTypes = (none, [], 7) := by
    have := tryFsTypes_none_of_allFail env iso fsTypes 0
      (fun j hj => by rw [Nat.zero_add]; exact h4 j hj)
      (fun j hj => by rw [Nat.zero_add]; exact h5 j hj)
    simpa using this
  rcases h3 with h3 | h3 <;>
    simp [mountOneIso, h1, h2, h3, htry]

/-- Shared helper: the outcome record for an unprivileged caller whose
mount point is not already mounted. -/
theorem mountOneIso_noPriv (env : MountEnv) (iso : String)
    (h1 : env.alreadyMounted (mountPoint env.hasher iso) = false)
    (h2 : env.euid ≠ 0) :
    mountOneIso env iso =
      { mounted := [], skipped := [], failed := [privFailMessage iso],
        createCalled := false, dirCreated := false, dirRemoved := false,
        mountCalls := 0 } := by
  simp [mountOneIso, h1, h2]

/-- Shared helper: an unprivileged caller never reaches the mount loop,
whether or not the target is already mounted. -/
theorem mountOneIso_noPriv_calls (env : MountEnv) (iso : String)
    (h : env.euid ≠ 0) : (mountOneIso env iso).mountCalls = 0 := by
  cases ha : env.alreadyMounted (mountPoint env.hasher iso)
  · rw [mountOneIso_noPriv env iso ha h]
  · simp [mountOneIso, ha]

/-- Shared helper: folding `+ mountCalls` over outcomes with zero calls
leaves the accumulator unchanged. -/
theorem foldl_mountCalls_zero :
    ∀ (l : List IsoOutcome) (acc : Nat), (∀ o ∈ l, o.mountCalls = 0) →
      l.foldl (fun a o => a + o.mountCalls) acc = acc := by
  intro l
  induction l with
  | nil => intro acc _; rfl
  | cons o rest ih =>
    intro acc h
    rw [List.foldl_cons, h o (List.mem_cons_self o rest), Nat.add_zero]
    exact ih acc (fun o' ho' => h o' (List.mem_cons_of_mem o ho'))

/-- C3: a candidate whose derived mount point is already a mount point
produces exactly one Skipped insertion — nothing in Mounted or Failed,
no `create_directory` call, no directory created, and zero
`mnt_context_mount` calls. -/
theorem mountOneIso_already_mounted (env : MountEnv) (iso : String)
    (h : env.alreadyMounted (mountPoint env.hasher iso) = true) :
    mountOneIso env iso =
      { mounted := [],
        skipped := [skippedMessage iso (mountPoint env.hasher iso)],
        failed := [], createCalled := false, dirCreated := false,
        dirRemoved := false, mountCalls := 0 } := by
  simp [mountOneIso, h]

theorem mountOneIso_already_mounted_witness :
    mountOneIso envAlready ("/a/b.iso") =
      { mounted := [],
        skipped := [skippedMessage ("/a/b.iso") (mountPoint envAlready.hasher ("/a/b.iso"))],
        failed := [], createCalled := false, dirCreated := false,
        dirRemoved := false, mountCalls := 0 } :=
  mountOneIso_already_mounted envAlready ("/a/b.iso") rfl

/-- C4 (counterexample): with an unprivileged caller, a candidate whose
mount point is already mounted is classified Skipped, not Failed — the
already-mounted check of mount.cpp line 330 precedes the privilege check
of line 343 — so not every selected candidate lands in Failed. -/
theorem unprivileged_failed_counterexample :
    envAlready.euid ≠ 0 ∧
    (mountOneIso envAlready ("/a/b.iso")).failed = [] ∧
    (mountOneIso envAlready ("/a/b.iso")).skipped ≠ [] := by
  refine ⟨by decide, by decide, by decide⟩

/-- C4 (amended): when the effective user is not privileged, zero OS
mount calls occur for the whole selection, and every candidate that is
not already mounted lands in Failed with the root-privileges-required
message (candidates already mounted are Skipped instead). -/
theorem mountIsoFile_unprivileged (env : MountEnv) (isos : List String)
    (h : env.euid ≠ 0) :
    batchMountCalls env isos = 0 ∧
    ∀ iso ∈ isos,
      (mountOneIso env iso).mountCalls = 0 ∧
      (env.alreadyMounted (mountPoint env.hasher iso) = false →
        mountOneIso env iso =
          { mounted := [], skipped := [], failed := [privFailMessage iso],
            createCalled := false, dirCreated := false, dirRemoved := false,
            mountCalls := 0 }) := by
  constructor
  · unfold batchMountCalls
    apply foldl_mountCalls_zero
    intro o ho
    unfold mountIsoFile at ho
    obtain ⟨iso, _, rfl⟩ := List.mem_map.mp ho
    exact mountOneIso_noPriv_calls env iso h
  · intro iso _
    exact ⟨mountOneIso_noPriv_calls env iso h,
      fun ha => mountOneIso_noPriv env iso ha h⟩

theorem mountIsoFile_unprivileged_witness :
    batchMountCalls envNoPriv ["/a/b.iso"] = 0 ∧
    ∀ iso ∈ ["/a/b.iso"],
      (mountOneIso envNoPriv iso).mountCalls = 0 ∧
      (envNoPriv.alreadyMounted (mountPoint envNoPriv.hasher iso) = false →
        mountOneIso envNoPriv iso =
          { mounted := [], skipped := [], failed := [privFailMessage iso],
            createCalled := false, dirCreated := false, dirRemoved := false,
            mountCalls := 0 }) :=
  mountIsoFile_unprivileged envNoPriv ["/a/b.iso"] (by decide)

/-- C5: when every one of the 7 filesystem types fails to mount, the
image is classified Failed with the `{badFS}` tag (and nothing else),
the mount-point directory is removed, and all 7 types were attempted. -/
theorem mountOneIso_exhaustion (env : MountEnv) (iso : String)
    (h1 : env.alreadyMounted (mountPoint env.hasher iso) = false)
    (h2 : env.euid = 0)
    (h3 : env.dirExists (mountPoint env.hasher iso) = true ∨
          env.createOk (mountPoint env.hasher iso) = true)
    (h4 : ∀ j, j < 7 → env.ctxOk iso j = true)
    (h5 : ∀ j, j < 7 → env.mountOk iso j = false) :
    (mountOneIso env iso).dirRemoved = true ∧
    (mountOneIso env iso).failed = [badFSMessage iso] ∧
    (mountOneIso env iso).mounted = [] ∧
    (mountOneIso env iso).skipped = [] ∧
    (mountOneIso env iso).mountCalls = 7 := by
  rw [mountOneIso_allFail env iso h1 h2 h3 h4 h5]
  exact ⟨rfl, rfl, rfl, rfl, rfl⟩

theorem mountOneIso_exhaustion_witness :
    (mountOneIso envAllFail ("/a/b.iso")).dirRemoved = true ∧
    (mountOneIso envAllFail ("/a/b.iso")).failed = [badFSMessage ("/a/b.iso")] ∧
    (mountOneIso envAllFail ("/a/b.iso")).mounted = [] ∧
    (mountOneIso envAllFail ("/a/b.iso")).skipped = [] ∧
    (mountOneIso envAllFail ("/a/b.iso")).mountCalls = 7 :=
  mountOneIso_exhaustion envAllFail ("/a/b.iso") rfl rfl (Or.inr rfl)
    (fun _ _ => rfl) (fun _ _ => rfl)

/-- C10: the removal on total mount failure is unconditional — with a
mount-point directory that already existed before the call (so this
attempt called `create_directory` for nothing and created nothing), the
directory is still removed. -/
theorem mountOneIso_removes_preexisting_dir (env : MountEnv) (iso : String)
    (h1 : env.alreadyMounted (mountPoint env.hasher iso) = false)
    (h2 : env.euid = 0)
    (h3 : env.dirExists (mountPoint env.hasher iso) = true)
    (h4 : ∀ j, j < 7 → env.ctxOk iso j = true)
    (h5 : ∀ j, j < 7 → env.mountOk iso j = false) :
    (mountOneIso env iso).dirRemoved = true ∧
    (mountOneIso env iso).createCalled = false ∧
    (mountOneIso env iso).dirCreated = false := by
  rw [mountOneIso_allFail env iso h1 h2 (Or.inl h3) h4 h5]
  simp [h3]

theorem mountOneIso_removes_preexisting_dir_witness :
    (mountOneIso envAllFailPre ("/a/b.iso")).dirRemoved = true ∧
    (mountOneIso envAllFailPre ("/a/b.iso")).createCalled = false ∧
    (mountOneIso envAllFailPre ("/a/b.iso")).dirCreated = false :=
  mountOneIso_removes_preexisting_dir envAllFailPre ("/a/b.iso") rfl rfl rfl
    (fun _ _ => rfl) (fun _ _ => rfl)

/-- C6: each processed image inserts messages into exactly one of the
outcome sets — Mounted, Skipped or Failed — never two.  (The fourth set,
InputError, receives only token errors from the selection loop, which
never produces a per-image message; see `stepToken`.) -/
theorem mountOneIso_single_outcome (env : MountEnv) (iso : String) :
    ((mountOneIso env iso).mounted ≠ [] ∧ (mountOneIso env iso).skipped = [] ∧
      (mountOneIso env iso).failed = []) ∨
    ((mountOneIso env iso).mounted = [] ∧ (mountOneIso env iso).skipped ≠ [] ∧
      (mountOneIso env iso).failed = []) ∨
    ((mountOneIso env iso).mounted = [] ∧ (mountOneIso env iso).skipped = [] ∧
      (mountOneIso env iso).failed ≠ []) := by
  by_cases ha : env.alreadyMounted (mountPoint env.hasher iso) = true
  · right; left
    simp [mountOneIso, ha]
  · rw [Bool.not_eq_true] at ha
    by_cases he : env.euid = 0
    · by_cases hd : env.dirExists (mountPoint env.hasher iso) = true
      · rcases htr : tryFsTypes env iso 0 fsTypes with ⟨s, ms, c⟩
        cases s with
        | some fs =>
          left
          have hms : ms = [] := tryFsTypes_success_msgs env iso fsTypes 0 fs ms c htr
          simp [mountOneIso, ha, he, hd, htr, hms]
        | none =>
          right; right
          simp [mountOneIso, ha, he, hd, htr]
      · rw [Bool.not_eq_true] at hd
        by_cases hc : env.createOk (mountPoint env.hasher iso) = true
        · rcases htr : tryFsTypes env iso 0 fsTypes with ⟨s, ms, c⟩
          cases s with
          | some fs =>
            left
            have hms : ms = [] := tryFsTypes_success_msgs env iso fsTypes 0 fs ms c htr
            simp [mountOneIso, ha, he, hd, hc, htr, hms]
          | none =>
            right; right
            simp [mountOneIso, ha, he, hd, hc, htr]
        · rw [Bool.not_eq_true] at hc
          right; right
          simp [mountOneIso, ha, he, hd, hc]
    · right; right
      simp [mountOneIso, ha, he]

/-! ## Selection dedup (claims C1, C8) -/

theorem classifyToken_range_bounds (n : Nat) (tok : String) (a b : Int)
    (h : classifyToken n tok = .range a b) :
    1 ≤ a ∧ a ≤ (n : Int) ∧ 1 ≤ b ∧ b ≤ (n : Int) := by
  unfold classifyToken at h
  repeat' split at h
  all_goals first
    | (injection h with h1 h2; subst h1; subst h2; push_neg at *; omega)
    | injection h

theorem classifyToken_single_bounds (n : Nat) (tok : String) (v : Int)
    (h : classifyToken n tok = .single v) : 1 ≤ v ∧ v ≤ (n : Int) := by
  unfold classifyToken at h
  repeat' split at h
  all_goals first
    | (injection h with h1; subst h1; omega)
    | injection h

theorem rangeSeq_bounds (n : Nat) (a b : Int)
    (hb : 1 ≤ a ∧ a ≤ (n : Int) ∧ 1 ≤ b ∧ b ≤ (n : Int)) :
    ∀ i ∈ rangeSeq a b, 1 ≤ i ∧ i ≤ (n : Int) := by
  intro i hi
  unfold rangeSeq at hi
  split at hi <;>
  · obtain ⟨k, hk, rfl⟩ := List.mem_map.mp hi
    rw [List.mem_range] at hk
    omega

theorem dispatchOne_inv (n : Nat) (st : SelState) (i : Int)
    (hinv : SelInv n st) (hb : 1 ≤ i ∧ i ≤ (n : Int)) :
    SelInv n (dispatchOne st i) := by
  unfold dispatchOne
  split
  · exact hinv
  · rename_i hmem
    have hni : i ∉ st.dispatched := fun h2 => hmem (hinv.2.1 i h2)
    refine ⟨List.nodup_cons.mpr ⟨hni, hinv.1⟩, ?_, ?_⟩
    · intro j hj
      rcases List.mem_cons.mp hj with rfl | hj
      · exact List.mem_cons_self _ _
      · exact List.mem_cons_of_mem _ (hinv.2.1 j hj)
    · intro j hj
      rcases List.mem_cons.mp hj with rfl | hj
      · exact hb
      · exact hinv.2.2 j hj

theorem dispatchSeq_inv (n : Nat) :
    ∀ (seq : List Int) (st : SelState),
      (∀ i ∈ seq, 1 ≤ i ∧ i ≤ (n : Int)) → SelInv n st →
      SelInv n (dispatchSeq seq st) := by
  intro seq
  induction seq with
  | nil => intro st _ h; exact h
  | cons i rest ih =>
    intro st hseq hinv
    exact ih (dispatchOne st i)
      (fun j hj => hseq j (List.mem_cons_of_mem i hj))
      (dispatchOne_inv n st i hinv (hseq i (List.mem_cons_self _ _)))

theorem stepToken_inv (n : Nat) (tok : String) (st : SelState)
    (hinv : SelInv n st) : SelInv n (stepToken n st tok) := by
  unfold stepToken
  split
  · exact hinv
  · cases hclass : classifyToken n tok with
    | stop => exact hinv
    | err m => exact hinv
    | crash => exact hinv
    | ignore => exact hinv
    | single v =>
      exact dispatchOne_inv n st v hinv (classifyToken_single_bounds n tok v hclass)
    | range a b =>
      show SelInv n
        (if (a, b) ∈ st.processedRanges then st
         else dispatchSeq (rangeSeq a b)
           { st with processedRanges := (a, b) :: st.processedRanges })
      split
      · exact hinv
      · exact dispatchSeq_inv n (rangeSeq a b) _
          (rangeSeq_bounds n a b (classifyToken_range_bounds n tok a b hclass))
          hinv

theorem selInv_initial (n : Nat) : SelInv n initialSelState := by
  refine ⟨List.nodup_nil, ?_, ?_⟩ <;> intro i hi <;> simp [initialSelState] at hi

theorem resolveSelection_inv (n : Nat) :
    ∀ (tokens : List String) (st : SelState), SelInv n st →
      SelInv n (tokens.foldl (stepToken n) st) := by
  intro tokens
  induction tokens with
  | nil => intro st h; exact h
  | cons t rest ih => intro st h; exact ih _ (stepToken_inv n t st h)

theorem firstOccurrences_eq_self :
    ∀ (l : List Int) (seen : List Int), l.Nodup → (∀ i ∈ l, i ∉ seen) →
      firstOccurrences l seen = l := by
  intro l
  induction l with
  | nil => intro seen _ _; rfl
  | cons i rest ih =>
    intro seen hnd hni
    rw [firstOccurrences, if_neg (hni i (List.mem_cons_self _ _))]
    congr 1
    apply ih
    · exact (List.nodup_cons.mp hnd).2
    · intro j hj hjs
      rcases List.mem_cons.mp hjs with rfl | hjs
      · exact (List.nodup_cons.mp hnd).1 hj
      · exact hni j (List.mem_cons_of_mem _ hj) hjs

/-- C1: in one `processAndMountIsoFiles` call, whatever the selection
string (overlapping ranges included), the dispatched indices are
pairwise distinct and lie in `[1, n]`, and the `validIndices` gate in
`processTask` then invokes `mountIsoFile` exactly once per dispatched
index — so each resolved index reaches `mountIsoFile` at most once. -/
theorem selection_dispatch_at_most_once (input : String) (n : Nat) :
    (resolveSelectionString n input).dispatched.Nodup ∧
    (∀ i ∈ (resolveSelectionString n input).dispatched, 1 ≤ i ∧ i ≤ (n : Int)) ∧
    mountTaskCalls (resolveSelectionString n input).dispatched =
      (resolveSelectionString n input).dispatched := by
  have hinv := resolveSelection_inv n (splitWS input) initialSelState (selInv_initial n)
  refine ⟨hinv.1, hinv.2.2, ?_⟩
  exact firstOccurrences_eq_self _ [] hinv.1 (fun i _ => List.not_mem_nil i)

/-- C8 (counterexample): the selection `"1-2 1-2"` against a list of 3
contains a duplicate range token, yet the token loop records no
input-validation error for it — the duplicate is silently dropped by the
`processedRanges` dedup (mount.cpp line 570), and the two indices are
dispatched exactly once. -/
theorem duplicate_range_not_reported :
    splitWS ("1-2 1-2") = ["1-2", "1-2"] ∧
    ¬ (splitWS ("1-2 1-2")).Nodup ∧
    (resolveSelectionString 3 ("1-2 1-2")).errors = [] ∧
    (resolveSelectionString 3 ("1-2 1-2")).dispatched = [2, 1] := by
  refine ⟨by decide, by decide, by decide, by decide⟩

/-- C8 (amended): a duplicate range token is silently deduplicated, not
reported: when a well-formed in-bounds range token's bounds are already
in `processedRanges`, the loop iteration leaves the state completely
unchanged — no InputError entry, no new dispatch — and scanning simply
continues with the next token, so the duplicate is never fatal to the
batch. -/
theorem duplicate_range_ignored (n : Nat) (st : SelState) (tok : String)
    (a b : Int)
    (h1 : st.stopped = false) (h2 : st.crashed = false)
    (h3 : classifyToken n tok = .range a b)
    (h4 : (a, b) ∈ st.processedRanges) :
    stepToken n st tok = st := by
  simp [stepToken, h1, h2, h3, h4]

theorem duplicate_range_ignored_witness :
    stepToken 3 dupRangeState ("1-2") = dupRangeState :=
  duplicate_range_ignored 3 dupRangeState ("1-2") 1 2 rfl rfl
    (by decide) (by decide)

/-! ## Orchestration counters and the progress thread (claim C9) -/

theorem orchStep_inv (s t : OrchState) (hinv : OrchInv s)
    (hstep : OrchStep s t) : OrchInv t := by
  obtain ⟨hsum, hdone, hps, hpe, hret⟩ := hinv
  cases hstep with
  | submit h =>
    refine ⟨?_, ?_, ?_, ?_, ?_⟩
    · show s.completedTasks + (s.activeTaskCount + 1) = s.totalTasks + 1
      omega
    · intro hd
      exact absurd h (by simp [(hdone hd).2])
    · intro hp
      exact absurd h (by simp [hps hp])
    · intro hx
      exact hpe hx
    · intro hr
      exact absurd h (by simp [(hret hr).1])
  | runTask h =>
    refine ⟨?_, ?_, ?_, ?_, ?_⟩
    · show s.completedTasks + 1 + (s.activeTaskCount - 1) = s.totalTasks
      omega
    · intro hd
      have := (hdone hd).1
      omega
    · intro hp
      exact hps hp
    · intro hx
      exact hpe hx
    · intro hr
      have := (hret hr).2.1
      omega
  | startProgress h1 h2 =>
    refine ⟨hsum, ?_, ?_, ?_, ?_⟩
    · intro hd
      exact absurd h1 (by simp [(hdone hd).2])
    · intro _
      rfl
    · intro hx
      exact hpe hx
    · intro hr
      exact absurd h1 (by simp [(hret hr).1])
  | returnEmpty h1 h2 =>
    refine ⟨hsum, ?_, ?_, ?_, ?_⟩
    · intro hd
      exact absurd h1 (by simp [(hdone hd).2])
    · intro hp
      exact absurd h1 (by simp [hps hp])
    · intro hx
      exact hpe hx
    · intro _
      refine ⟨rfl, ?_, fun hp => absurd h1 (by simp [hps hp])⟩
      show s.completedTasks = s.totalTasks
      omega
  | observeZero h1 h2 h3 h4 =>
    refine ⟨hsum, ?_, ?_, ?_, ?_⟩
    · intro _
      exact ⟨h3, h1⟩
    · intro hp
      exact hps hp
    · intro _
      rfl
    · intro hr
      exact ⟨(hret hr).1, (hret hr).2.1, (hret hr).2.2⟩
  | progressExit h1 h2 =>
    refine ⟨hsum, hdone, hps, ?_, ?_⟩
    · intro _
      exact h1
    · intro hr
      exact ⟨(hret hr).1, (hret hr).2.1, fun _ => rfl⟩
  | joinReturn h1 h2 h3 =>
    refine ⟨hsum, hdone, hps, hpe, ?_⟩
    intro _
    refine ⟨hps h1, ?_, fun _ => h3⟩
    have := (hdone h2).1
    show s.completedTasks = s.totalTasks
    omega

theorem orchInv_init : OrchInv orchInit := by
  refine ⟨rfl, ?_, ?_, ?_, ?_⟩ <;> intro h <;> exact absurd h (by simp [orchInit])

theorem orchReachable_inv (s : OrchState) (h : OrchReachable s) : OrchInv s := by
  induction h with
  | refl => exact orchInv_init
  | tail h1 h2 ih => exact orchStep_inv _ _ ih h2

/-- C9: in every complete execution of `processAndMountIsoFiles` (every
interleaving of the orchestration step relation that reaches the
function's return), the completed-task counter equals the number of
submitted tasks, and if the progress thread was started it has observed
the done flag and terminated before the join returned. -/
theorem orchestration_after_return (s : OrchState) (h : OrchReachable s)
    (hr : s.returned = true) :
    s.completedTasks = s.totalTasks ∧
    (s.progressStarted = true → s.progressExited = true) := by
  obtain ⟨_, _, _, _, hret⟩ := orchReachable_inv s h
  exact ⟨(hret hr).2.1, (hret hr).2.2⟩

theorem orchestration_after_return_witness :
    orchFinal.completedTasks = orchFinal.totalTasks ∧
    (orchFinal.progressStarted = true → orchFinal.progressExited = true) := by
  have h1 : OrchStep orchInit ⟨1, 0, 1, true, false, false, false, false⟩ :=
    OrchStep.submit _ rfl
  have h2 : OrchStep ⟨1, 0, 1, true, false, false, false, false⟩
      ⟨1, 0, 1, false, false, true, false, false⟩ :=
    OrchStep.startProgress _ rfl (by decide)
  have h3 : OrchStep ⟨1, 0, 1, false, false, true, false, false⟩
      ⟨1, 1, 0, false, false, true, false, false⟩ :=
    OrchStep.runTask _ (by decide)
  have h4 : OrchStep ⟨1, 1, 0, false, false, true, false, false⟩
      ⟨1, 1, 0, false, true, true, false, false⟩ :=
    OrchStep.observeZero _ rfl rfl rfl rfl
  have h5 : OrchStep ⟨1, 1, 0, false, true, true, false, false⟩
      ⟨1, 1, 0, false, true, true, true, false⟩ :=
    OrchStep.progressExit _ rfl rfl
  have h6 : OrchStep ⟨1, 1, 0, false, true, true, true, false⟩ orchFinal :=
    OrchStep.joinReturn _ rfl rfl rfl
  have hreach : OrchReachable orchFinal :=
    Relation.ReflTransGen.tail
      (Relation.ReflTransGen.tail
        (Relation.ReflTransGen.tail
          (Relation.ReflTransGen.tail
            (Relation.ReflTransGen.tail (Relation.ReflTransGen.single h1) h2)
            h3)
          h4)
        h5)
      h6
  exact orchestration_after_return orchFinal hreach rfl

end MounterElite
